import Mathlib

/-!
Verification of the market-conventions core: day-count conventions
(`daycount.py`) and roll (business-day) conventions (`rollconvention.py`),
over the date utilities of `date_utils.py`.

Dates are modelled two ways, mirroring how the source uses them:
* day-count functions read the `(year, month, day)` fields of
  `datetime.date` and the raw day difference `(end - start).days`;
  we embed a `Date` record and an ordinal conversion `daysFromCivil`
  (the standard proleptic-Gregorian civil-from/to-days algorithm, the
  same bijection `datetime.date` implements) for the raw difference;
* roll conventions walk a date one day at a time and only inspect
  `weekday()` and `month`; we embed the walking date as its ordinal
  (an `Int`, day 0 = 1970-01-01) so that `date + timedelta(days=1)`
  is `+ 1`, and recover `month`/`weekday` from the ordinal.

Python floats appear only as exact quotients of integers by the
constants 360.0 / 365.0 / 366.0; year fractions are embedded in `ℚ`.
The unbounded `while` walks of `rollconvention.py` are embedded with an
explicit fuel parameter returning `Option Int`: `none` means the walk
did not finish within the given fuel, and termination of the Python
loop corresponds to `∃ fuel, … = some _`.
-/

set_option maxRecDepth 40000

/-- A calendar date as the source reads it: `year`, `month`, `day` fields. -/
structure Date where
  year : Int
  month : Int
  day : Int
deriving DecidableEq, Repr

/-- Leap-year test as written in `daycount.py` (`ActualActual`). -/
def isLeapYear (y : Int) : Bool :=
  y % 4 == 0 && (y % 100 != 0 || y % 400 == 0)

/-- Number of days in a month of the proleptic Gregorian calendar. -/
def daysInMonth (y m : Int) : Int :=
  if m = 2 then (if isLeapYear y then 29 else 28)
  else if m = 4 ∨ m = 6 ∨ m = 9 ∨ m = 11 then 30
  else 31

/-- A structurally valid calendar date (what `datetime.date` enforces). -/
def Date.Valid (d : Date) : Prop :=
  1 ≤ d.month ∧ d.month ≤ 12 ∧ 1 ≤ d.day ∧ d.day ≤ daysInMonth d.year d.month

instance (d : Date) : Decidable d.Valid := by
  unfold Date.Valid; infer_instance

/-- Ordinal (days since 1970-01-01) of a civil date; the standard
civil-to-days algorithm, the bijection underlying `datetime.date`. -/
def daysFromCivil (y m d : Int) : Int :=
  let y' := if m ≤ 2 then y - 1 else y
  let era := y' / 400
  let yoe := y' - era * 400
  let doy := (153 * (m + (if 2 < m then -3 else 9)) + 2) / 5 + d - 1
  let doe := yoe * 365 + yoe / 4 - yoe / 100 + doy
  era * 146097 + doe - 719468

/-- Civil date `(year, month, day)` of an ordinal; inverse of `daysFromCivil`. -/
def civilFromDays (z0 : Int) : Int × Int × Int :=
  let z := z0 + 719468
  let era := z / 146097
  let doe := z - era * 146097
  let yoe := (doe - doe / 1460 + doe / 36524 - doe / 146096) / 365
  let y := yoe + era * 400
  let doy := doe - (365 * yoe + yoe / 4 - yoe / 100)
  let mp := (5 * doy + 2) / 153
  let d := doy - (153 * mp + 2) / 5 + 1
  let m := mp + (if mp < 10 then 3 else -9)
  (if m ≤ 2 then y + 1 else y, m, d)

/-- Ordinal of a `Date` record. -/
def Date.ordinal (d : Date) : Int := daysFromCivil d.year d.month d.day

/-- Convenience: the ordinal of the date `y-m-d`. -/
def mkDate (y m d : Int) : Int := daysFromCivil y m d

/-- `date.year` of an ordinal. -/
def yearOf (z : Int) : Int := (civilFromDays z).1

/-- `date.month` of an ordinal. -/
def monthOf (z : Int) : Int := (civilFromDays z).2.1

/-- `date.weekday()` of an ordinal: Monday = 0 … Sunday = 6
(day 0 = 1970-01-01 was a Thursday, weekday 3). -/
def weekdayOf (z : Int) : Int := (z + 3) % 7

/-- A holiday set, as the source uses it: a membership test over dates. -/
def HolidaySet : Type := Int → Bool

/-- `date_utils.is_business_day`: weekday < 5 and not a holiday. -/
def is_business_day (z : Int) (holidays : HolidaySet) : Bool :=
  decide (weekdayOf z < 5) && !(holidays z)

/-- `(end_date - start_date).days` for two `Date` records. -/
def timeDelta (start_date end_date : Date) : Int :=
  end_date.ordinal - start_date.ordinal

/-- `Actual360.year_fraction` from `daycount.py`. -/
def Actual360.year_fraction (start_date end_date : Date) : ℚ :=
  (timeDelta start_date end_date : ℚ) / 360

/-- `Actual365.year_fraction` from `daycount.py`. -/
def Actual365.year_fraction (start_date end_date : Date) : ℚ :=
  (timeDelta start_date end_date : ℚ) / 365

/-- `ActualActual.year_fraction` from `daycount.py`: raw days over the
length of the start date's calendar year. -/
def ActualActual.year_fraction (start_date end_date : Date) : ℚ :=
  let time_delta := timeDelta start_date end_date
  let year_length : Int :=
    if start_date.year % 4 = 0 ∧ (start_date.year % 100 ≠ 0 ∨ start_date.year % 400 = 0)
    then 366 else 365
  (time_delta : ℚ) / (year_length : ℚ)

/-- `Thirty360.year_fraction` from `daycount.py`. -/
def Thirty360.year_fraction (start_date end_date : Date) : ℚ :=
  let d1 := min start_date.day 30
  let d2 := min end_date.day 30
  let m1 := start_date.month
  let m2 := end_date.month
  let y1 := start_date.year
  let y2 := end_date.year
  ((360 * (y2 - y1) + 30 * (m2 - m1) + (d2 - d1) : Int) : ℚ) / 360

/-- `Thirty360US.year_fraction` from `daycount.py`: reassignments of the
Python locals `d1`, `d2` become shadowing `let`s, in source order. -/
def Thirty360US.year_fraction (start_date end_date : Date) : ℚ :=
  let d1 := start_date.day
  let d2 := end_date.day
  let m1 := start_date.month
  let m2 := end_date.month
  let y1 := start_date.year
  let y2 := end_date.year
  let d1 := if d1 = 31 then 30 else d1
  let d2 := if d2 = 31 ∧ d1 = 30 then 30 else d2
  ((360 * (y2 - y1) + 30 * (m2 - m1) + (d2 - d1) : Int) : ℚ) / 360

/-- `Thirty360EU.year_fraction` from `daycount.py`: `min`-clamp first,
then the (dead) `== 31` reclamps, in source order. -/
def Thirty360EU.year_fraction (start_date end_date : Date) : ℚ :=
  let d1 := min start_date.day 30
  let d2 := min end_date.day 30
  let m1 := start_date.month
  let m2 := end_date.month
  let y1 := start_date.year
  let y2 := end_date.year
  let d1 := if d1 = 31 then 30 else d1
  let d2 := if d2 = 31 then 30 else d2
  ((360 * (y2 - y1) + 30 * (m2 - m1) + (d2 - d1) : Int) : ℚ) / 360

/-- The closed enumeration of day-count conventions (`DayCountConvention`). -/
inductive DayCountConvention where
  | ACTUAL_360
  | ACTUAL_365
  | ACTUAL_ACTUAL
  | THIRTY_360
  | THIRTY_360_US
  | THIRTY_360_EU
deriving DecidableEq, Repr

/-- Dispatch of `year_fraction` over the convention tag. -/
def yearFraction : DayCountConvention → Date → Date → ℚ
  | .ACTUAL_360 => Actual360.year_fraction
  | .ACTUAL_365 => Actual365.year_fraction
  | .ACTUAL_ACTUAL => ActualActual.year_fraction
  | .THIRTY_360 => Thirty360.year_fraction
  | .THIRTY_360_US => Thirty360US.year_fraction
  | .THIRTY_360_EU => Thirty360EU.year_fraction

/-- `Following.adjustDay` from `rollconvention.py`: walk forward one day
at a time while not a business day. The `while` loop has no iteration cap
in the source; `fuel` makes the walk total, `none` meaning the loop has
not finished within `fuel` iterations. -/
def Following.adjustDay : Nat → Int → HolidaySet → Option Int
  | 0, _, _ => none
  | fuel + 1, date, holidays =>
    if is_business_day date holidays then some date
    else Following.adjustDay fuel (date + 1) holidays

/-- `Preceding.adjustDay` from `rollconvention.py`: walk backward one day
at a time while not a business day (fuel as in `Following.adjustDay`). -/
def Preceding.adjustDay : Nat → Int → HolidaySet → Option Int
  | 0, _, _ => none
  | fuel + 1, date, holidays =>
    if is_business_day date holidays then some date
    else Preceding.adjustDay fuel (date - 1) holidays

/-- `ModifiedFollowing.adjustDay` from `rollconvention.py`: forward walk;
if the month changed, step back one day and walk backward to a business
day. -/
def ModifiedFollowing.adjustDay (fuel : Nat) (date : Int) (holidays : HolidaySet) :
    Option Int :=
  let original_month := monthOf date
  match Following.adjustDay fuel date holidays with
  | none => none
  | some d =>
    if monthOf d ≠ original_month then
      Preceding.adjustDay fuel (d - 1) holidays
    else some d

/-! ### Helper lemmas (shared) -/

theorem daysInMonth_le (y m : Int) : daysInMonth y m ≤ 31 := by
  unfold daysInMonth
  split_ifs <;> omega

theorem thirty360EU_eq_thirty360 (s e : Date) :
    Thirty360EU.year_fraction s e = Thirty360.year_fraction s e := by
  unfold Thirty360EU.year_fraction Thirty360.year_fraction
  have h1 : ¬ min s.day 30 = 31 := by omega
  have h2 : ¬ min e.day 30 = 31 := by omega
  simp only [if_neg h1, if_neg h2]

/-! ### Day-count claims -/

/-- C3: for every pair of dates, `Thirty360.year_fraction` and
`Thirty360EU.year_fraction` return exactly the same value: the
`min(day, 30)` clamp makes the `d == 31` branches of the EU variant
unreachable, reducing it to the plain 30/360 computation. -/
theorem c3_thirty360EU_equals_thirty360 :
    ∀ s e : Date, Thirty360EU.year_fraction s e = Thirty360.year_fraction s e :=
  fun s e => thirty360EU_eq_thirty360 s e

/-- C2 (counterexample): no pair of valid dates with start day 31 makes
the three 30/360 variants pairwise different — `Thirty360` and
`Thirty360EU` agree on every pair of dates. -/
theorem c2_counterexample :
    ¬ ∃ s e : Date, s.Valid ∧ e.Valid ∧ s.day = 31 ∧
      Thirty360.year_fraction s e ≠ Thirty360US.year_fraction s e ∧
      Thirty360.year_fraction s e ≠ Thirty360EU.year_fraction s e ∧
      Thirty360US.year_fraction s e ≠ Thirty360EU.year_fraction s e := by
  rintro ⟨s, e, -, -, -, -, h, -⟩
  exact h (thirty360EU_eq_thirty360 s e).symm

/-- C2 (amended): the three 30/360 variants return different year
fractions only when at least one endpoint's day-of-month is 31; no date
pair makes all three pairwise different (Thirty360EU always equals
Thirty360), but on the pair 2023-01-15 / 2023-03-31 (end day 31, start
day below 30) Thirty360US differs from both other variants. -/
theorem c2_thirty360_divergence :
    (∀ s e : Date, s.Valid → e.Valid →
      ¬(Thirty360.year_fraction s e = Thirty360US.year_fraction s e ∧
        Thirty360.year_fraction s e = Thirty360EU.year_fraction s e) →
      s.day = 31 ∨ e.day = 31)
    ∧ Thirty360US.year_fraction ⟨2023, 1, 15⟩ ⟨2023, 3, 31⟩ ≠
        Thirty360.year_fraction ⟨2023, 1, 15⟩ ⟨2023, 3, 31⟩
    ∧ Thirty360US.year_fraction ⟨2023, 1, 15⟩ ⟨2023, 3, 31⟩ ≠
        Thirty360EU.year_fraction ⟨2023, 1, 15⟩ ⟨2023, 3, 31⟩ := by
  refine ⟨?_,
    by norm_num [Thirty360US.year_fraction, Thirty360.year_fraction],
    by norm_num [Thirty360US.year_fraction, Thirty360EU.year_fraction]⟩
  intro s e hs he hdiff
  by_contra hnot
  push_neg at hnot
  obtain ⟨h1, h2⟩ := hnot
  apply hdiff
  have hub1 := daysInMonth_le s.year s.month
  have hub2 := daysInMonth_le e.year e.month
  have hs30 : s.day ≤ 30 := by have := hs.2.2.2; omega
  have he30 : e.day ≤ 30 := by have := he.2.2.2; omega
  refine ⟨?_, (thirty360EU_eq_thirty360 s e).symm⟩
  unfold Thirty360.year_fraction Thirty360US.year_fraction
  have e1 : min s.day 30 = s.day := min_eq_left hs30
  have e2 : min e.day 30 = e.day := min_eq_left he30
  simp only [e1, e2, if_neg h1, if_neg (show ¬(e.day = 31 ∧ s.day = 30) from fun hc => h2 hc.1)]

/-- The start-day clamp of the spec's Thirty360US row:
`d1' = 30 if d1 == 31 else d1`. -/
def d1ClampUS (d1 : Int) : Int := if d1 = 31 then 30 else d1

/-- The end-day clamp of the spec's Thirty360US row:
`d2' = 30 if (d2 == 31 and d1' == 30) else d2`. -/
def d2ClampUS (d1c d2 : Int) : Int := if d2 = 31 ∧ d1c = 30 then 30 else d2

/-- C4: `Thirty360US.year_fraction` clamps the start day to 30 exactly
when it is 31, clamps the end day to 30 exactly when it is 31 and the
clamped start day is 30 (an end day of 31 is kept whenever the clamped
start day is not 30), and returns
`(360*(y2-y1) + 30*(m2-m1) + (d2'-d1')) / 360`. -/
theorem c4_thirty360US_formula :
    ∀ s e : Date,
      (Thirty360US.year_fraction s e =
        ((360 * (e.year - s.year) + 30 * (e.month - s.month) +
          (d2ClampUS (d1ClampUS s.day) e.day - d1ClampUS s.day) : Int) : ℚ) / 360)
      ∧ (d1ClampUS s.day ≠ 30 → e.day = 31 →
          d2ClampUS (d1ClampUS s.day) e.day = 31) := by
  intro s e
  refine ⟨rfl, ?_⟩
  intro h1 h2
  unfold d2ClampUS
  rw [if_neg (fun hc => h1 hc.2)]
  exact h2

/-- C4 (witness): at start 2023-01-15 and end 2023-03-31 the clamped
start day 15 is not 30, so the end day 31 is kept as 31. -/
theorem c4_thirty360US_formula_witness :
    d1ClampUS (15 : Int) ≠ 30 ∧ (31 : Int) = 31 ∧
      d2ClampUS (d1ClampUS (15 : Int)) 31 = 31 :=
  ⟨by decide, rfl, (c4_thirty360US_formula ⟨2023, 1, 15⟩ ⟨2023, 3, 31⟩).2 (by decide) rfl⟩

/-- Year length as the spec words it: 366 when the year is divisible by
4 and (not divisible by 100 or divisible by 400), else 365 (refinement
comparison definition, written from the spec's sentence). -/
def yearLengthSpec (y : Int) : Int :=
  if y % 4 = 0 ∧ (y % 100 ≠ 0 ∨ y % 400 = 0) then 366 else 365

/-- C5: `ActualActual.year_fraction` divides the raw day difference by
the length of the start date's calendar year only (the end date's year
never enters), and that length is 366 for start years 2000 and 2024 and
365 for 1900 and 2023. -/
theorem c5_actual_actual_divisor :
    (∀ s e : Date,
      ActualActual.year_fraction s e = (timeDelta s e : ℚ) / (yearLengthSpec s.year : ℚ))
    ∧ yearLengthSpec 2000 = 366 ∧ yearLengthSpec 2024 = 366
    ∧ yearLengthSpec 1900 = 365 ∧ yearLengthSpec 2023 = 365 :=
  ⟨fun _ _ => rfl, by decide, by decide, by decide, by decide⟩

/-- C8: for every day-count convention among the six and every date `d`,
the year fraction from `d` to `d` is zero. -/
theorem c8_year_fraction_diagonal_zero :
    ∀ (c : DayCountConvention) (d : Date), yearFraction c d d = 0 := by
  intro c d
  cases c
  case ACTUAL_360 => simp [yearFraction, Actual360.year_fraction, timeDelta]
  case ACTUAL_365 => simp [yearFraction, Actual365.year_fraction, timeDelta]
  case ACTUAL_ACTUAL => simp [yearFraction, ActualActual.year_fraction, timeDelta]
  case THIRTY_360 => simp [yearFraction, Thirty360.year_fraction]
  case THIRTY_360_US =>
    by_cases h : d.day = 31 <;> simp [yearFraction, Thirty360US.year_fraction, h]
  case THIRTY_360_EU => simp [yearFraction, Thirty360EU.year_fraction]

/-- C9: for Actual/360 and Actual/365, the year fraction negates when
the endpoints are swapped, because the raw day difference negates. -/
theorem c9_actual_antisymmetry :
    ∀ d1 d2 : Date,
      Actual360.year_fraction d1 d2 = -(Actual360.year_fraction d2 d1) ∧
      Actual365.year_fraction d1 d2 = -(Actual365.year_fraction d2 d1) := by
  intro d1 d2
  constructor <;>
  · simp only [Actual360.year_fraction, Actual365.year_fraction, timeDelta]
    push_cast
    ring

/-! ### Walk lemmas (shared) -/

theorem following_sound :
    ∀ (fuel : Nat) (z w : Int) (hs : HolidaySet),
      Following.adjustDay fuel z hs = some w →
      z ≤ w ∧ is_business_day w hs = true ∧
        ∀ u, z ≤ u → u < w → is_business_day u hs = false := by
  intro fuel
  induction fuel with
  | zero => intro z w hs h; simp [Following.adjustDay] at h
  | succ n ih =>
    intro z w hs h
    simp only [Following.adjustDay] at h
    by_cases hb : is_business_day z hs = true
    · rw [if_pos hb] at h
      obtain rfl : z = w := Option.some.inj h
      exact ⟨le_refl z, hb, fun u h1 h2 => absurd (lt_of_le_of_lt h1 h2) (lt_irrefl z)⟩
    · rw [if_neg hb] at h
      obtain ⟨h1, h2, h3⟩ := ih (z + 1) w hs h
      refine ⟨by omega, h2, fun u hu1 hu2 => ?_⟩
      rcases eq_or_lt_of_le hu1 with heq | hlt
      · subst heq
        cases h' : is_business_day z hs with
        | false => rfl
        | true => exact absurd h' hb
      · exact h3 u (by omega) hu2

theorem preceding_sound :
    ∀ (fuel : Nat) (z w : Int) (hs : HolidaySet),
      Preceding.adjustDay fuel z hs = some w →
      w ≤ z ∧ is_business_day w hs = true ∧
        ∀ u, w < u → u ≤ z → is_business_day u hs = false := by
  intro fuel
  induction fuel with
  | zero => intro z w hs h; simp [Preceding.adjustDay] at h
  | succ n ih =>
    intro z w hs h
    simp only [Preceding.adjustDay] at h
    by_cases hb : is_business_day z hs = true
    · rw [if_pos hb] at h
      obtain rfl : z = w := Option.some.inj h
      exact ⟨le_refl z, hb, fun u h1 h2 => absurd (lt_of_lt_of_le h1 h2) (lt_irrefl z)⟩
    · rw [if_neg hb] at h
      obtain ⟨h1, h2, h3⟩ := ih (z - 1) w hs h
      refine ⟨by omega, h2, fun u hu1 hu2 => ?_⟩
      rcases eq_or_lt_of_le hu2 with heq | hlt
      · subst heq
        cases h' : is_business_day u hs with
        | false => rfl
        | true => exact absurd h' hb
      · exact h3 u hu1 (by omega)

theorem following_complete :
    ∀ (n : Nat) (z : Int) (hs : HolidaySet),
      is_business_day (z + (n : Int)) hs = true →
      ∃ w, Following.adjustDay (n + 1) z hs = some w := by
  intro n
  induction n with
  | zero =>
    intro z hs h
    refine ⟨z, ?_⟩
    simp only [Following.adjustDay]
    rw [if_pos (by simpa using h)]
  | succ m ih =>
    intro z hs h
    by_cases hb : is_business_day z hs = true
    · exact ⟨z, by simp only [Following.adjustDay]; rw [if_pos hb]⟩
    · have h' : is_business_day (z + 1 + (m : Int)) hs = true := by
        have hz : z + 1 + (m : Int) = z + ((m + 1 : Nat) : Int) := by push_cast; ring
        rw [hz]; exact h
      obtain ⟨w, hw⟩ := ih (z + 1) hs h'
      refine ⟨w, ?_⟩
      simp only [Following.adjustDay]
      rw [if_neg hb]
      exact hw

theorem preceding_complete :
    ∀ (n : Nat) (z : Int) (hs : HolidaySet),
      is_business_day (z - (n : Int)) hs = true →
      ∃ w, Preceding.adjustDay (n + 1) z hs = some w := by
  intro n
  induction n with
  | zero =>
    intro z hs h
    refine ⟨z, ?_⟩
    simp only [Preceding.adjustDay]
    rw [if_pos (by simpa using h)]
  | succ m ih =>
    intro z hs h
    by_cases hb : is_business_day z hs = true
    · exact ⟨z, by simp only [Preceding.adjustDay]; rw [if_pos hb]⟩
    · have h' : is_business_day (z - 1 - (m : Int)) hs = true := by
        have hz : z - 1 - (m : Int) = z - ((m + 1 : Nat) : Int) := by push_cast; ring
        rw [hz]; exact h
      obtain ⟨w, hw⟩ := ih (z - 1) hs h'
      refine ⟨w, ?_⟩
      simp only [Preceding.adjustDay]
      rw [if_neg hb]
      exact hw

theorem following_divergent :
    ∀ (fuel : Nat) (z : Int) (hs : HolidaySet),
      (∀ u, z ≤ u → is_business_day u hs = false) →
      Following.adjustDay fuel z hs = none := by
  intro fuel
  induction fuel with
  | zero => intro z hs _; rfl
  | succ n ih =>
    intro z hs h
    simp only [Following.adjustDay]
    rw [if_neg (by simp [h z le_rfl])]
    exact ih (z + 1) hs (fun u hu => h u (by omega))

theorem preceding_divergent :
    ∀ (fuel : Nat) (z : Int) (hs : HolidaySet),
      (∀ u, u ≤ z → is_business_day u hs = false) →
      Preceding.adjustDay fuel z hs = none := by
  intro fuel
  induction fuel with
  | zero => intro z hs _; rfl
  | succ n ih =>
    intro z hs h
    simp only [Preceding.adjustDay]
    rw [if_neg (by simp [h z le_rfl])]
    exact ih (z - 1) hs (fun u hu => h u (by omega))

theorem modifiedFollowing_eq_bind (fuel : Nat) (z : Int) (hs : HolidaySet) :
    ModifiedFollowing.adjustDay fuel z hs =
      (Following.adjustDay fuel z hs).bind (fun d =>
        if monthOf d ≠ monthOf z then Preceding.adjustDay fuel (d - 1) hs
        else some d) := by
  cases hF : Following.adjustDay fuel z hs with
  | none => simp [ModifiedFollowing.adjustDay, hF]
  | some v => simp [ModifiedFollowing.adjustDay, hF]

/-! ### Roll-convention claims -/

/-- C1: `ModifiedFollowing.adjustDay` runs Following's forward walk
(one day at a time until a business day); when the adjusted month
differs from the input's it restarts a backward walk from the adjusted
date minus one day, not from the original date. On 2023-12-31 (a
Sunday) with an empty holiday set, `Following.adjustDay` returns
2024-01-01 while `ModifiedFollowing.adjustDay` returns 2023-12-29. -/
theorem c1_modified_following_structure :
    (∀ (fuel : Nat) (z : Int) (hs : HolidaySet),
      ModifiedFollowing.adjustDay fuel z hs =
        (Following.adjustDay fuel z hs).bind (fun d =>
          if monthOf d ≠ monthOf z then Preceding.adjustDay fuel (d - 1) hs
          else some d))
    ∧ Following.adjustDay 5 (mkDate 2023 12 31) (fun _ => false) = some (mkDate 2024 1 1)
    ∧ ModifiedFollowing.adjustDay 5 (mkDate 2023 12 31) (fun _ => false) =
        some (mkDate 2023 12 29) :=
  ⟨fun fuel z hs => modifiedFollowing_eq_bind fuel z hs, by decide, by decide⟩

/-- C6: the business-day walks have no iteration cap. If some business
day lies at-or-after (resp. at-or-before) the input, the walk
terminates (some fuel suffices) and returns the first such business
day; if every day in the walk direction is non-business, no amount of
fuel makes the walk finish (the loop never terminates and no error is
raised). -/
theorem c6_walks_no_iteration_cap :
    ∀ (z : Int) (hs hsAll : HolidaySet),
      ((∃ b, z ≤ b ∧ is_business_day b hs = true) →
        ∃ fuel w, Following.adjustDay fuel z hs = some w ∧ z ≤ w ∧
          is_business_day w hs = true ∧
          ∀ u, z ≤ u → u < w → is_business_day u hs = false)
      ∧ ((∀ u, z ≤ u → is_business_day u hsAll = false) →
          ∀ fuel, Following.adjustDay fuel z hsAll = none)
      ∧ ((∃ b, b ≤ z ∧ is_business_day b hs = true) →
        ∃ fuel w, Preceding.adjustDay fuel z hs = some w ∧ w ≤ z ∧
          is_business_day w hs = true ∧
          ∀ u, w < u → u ≤ z → is_business_day u hs = false)
      ∧ ((∀ u, u ≤ z → is_business_day u hsAll = false) →
          ∀ fuel, Preceding.adjustDay fuel z hsAll = none) := by
  intro z hs hsAll
  refine ⟨?_, ?_, ?_, ?_⟩
  · rintro ⟨b, hzb, hb⟩
    have hn : z + (((b - z).toNat : Nat) : Int) = b := by omega
    obtain ⟨w, hw⟩ := following_complete (b - z).toNat z hs (by rw [hn]; exact hb)
    obtain ⟨h1, h2, h3⟩ := following_sound _ _ _ _ hw
    exact ⟨_, w, hw, h1, h2, h3⟩
  · intro h fuel
    exact following_divergent fuel z hsAll h
  · rintro ⟨b, hzb, hb⟩
    have hn : z - (((z - b).toNat : Nat) : Int) = b := by omega
    obtain ⟨w, hw⟩ := preceding_complete (z - b).toNat z hs (by rw [hn]; exact hb)
    obtain ⟨h1, h2, h3⟩ := preceding_sound _ _ _ _ hw
    exact ⟨_, w, hw, h1, h2, h3⟩
  · intro h fuel
    exact preceding_divergent fuel z hsAll h

/-- C6 (witness): at ordinal 0 (1970-01-01, a Thursday): with the empty
holiday set both walks terminate at a business day; with the all-days
holiday set both walks return `none` at every fuel. -/
theorem c6_walks_no_iteration_cap_witness :
    ((∃ b, (0 : Int) ≤ b ∧ is_business_day b (fun _ => false) = true) ∧
      ∃ fuel w, Following.adjustDay fuel 0 (fun _ => false) = some w ∧ (0 : Int) ≤ w ∧
        is_business_day w (fun _ => false) = true ∧
        ∀ u, (0 : Int) ≤ u → u < w → is_business_day u (fun _ => false) = false)
    ∧ ((∀ u, (0 : Int) ≤ u → is_business_day u (fun _ => true) = false) ∧
        ∀ fuel, Following.adjustDay fuel 0 (fun _ => true) = none)
    ∧ ((∃ b, b ≤ (0 : Int) ∧ is_business_day b (fun _ => false) = true) ∧
      ∃ fuel w, Preceding.adjustDay fuel 0 (fun _ => false) = some w ∧ w ≤ (0 : Int) ∧
        is_business_day w (fun _ => false) = true ∧
        ∀ u, w < u → u ≤ (0 : Int) → is_business_day u (fun _ => false) = false)
    ∧ ((∀ u, u ≤ (0 : Int) → is_business_day u (fun _ => true) = false) ∧
        ∀ fuel, Preceding.adjustDay fuel 0 (fun _ => true) = none) := by
  have hex : ∃ b, (0 : Int) ≤ b ∧ is_business_day b (fun _ => false) = true :=
    ⟨0, le_rfl, by decide⟩
  have hexp : ∃ b, b ≤ (0 : Int) ∧ is_business_day b (fun _ => false) = true :=
    ⟨0, le_rfl, by decide⟩
  have hallf : ∀ u, (0 : Int) ≤ u → is_business_day u (fun _ => true) = false := by
    intro u _; simp [is_business_day]
  have hallp : ∀ u, u ≤ (0 : Int) → is_business_day u (fun _ => true) = false := by
    intro u _; simp [is_business_day]
  obtain ⟨p1, p2, p3, p4⟩ := c6_walks_no_iteration_cap 0 (fun _ => false) (fun _ => true)
  exact ⟨⟨hex, p1 hex⟩, ⟨hallf, p2 hallf⟩, ⟨hexp, p3 hexp⟩, ⟨hallp, p4 hallp⟩⟩

/-- C7 (counterexample): with holidays covering 2023-01-10 through
2024-01-07, `ModifiedFollowing.adjustDay` on 2023-01-10 terminates and
returns 2024-01-08 — a strictly later (year, month) than the input's —
because the guard compares month numbers only and both dates are in
month 1. -/
def c7Holidays : HolidaySet :=
  fun d => decide (mkDate 2023 1 10 ≤ d ∧ d < mkDate 2024 1 8)

/-- C7 (counterexample): the claim fails — a terminating call can
return a date in a later (year, month) than the input's. -/
theorem c7_counterexample :
    ModifiedFollowing.adjustDay 400 (mkDate 2023 1 10) c7Holidays = some (mkDate 2024 1 8)
    ∧ yearOf (mkDate 2023 1 10) = 2023 ∧ monthOf (mkDate 2023 1 10) = 1
    ∧ yearOf (mkDate 2024 1 8) = 2024 ∧ monthOf (mkDate 2024 1 8) = 1 := by
  refine ⟨by decide, by decide, by decide, by decide, by decide⟩

/-- C7 (amended): whenever `ModifiedFollowing.adjustDay` terminates,
either the result carries the same month-of-year number as the input —
it is the forward walk's result, possibly in a later year — or the
month number differs and the result is strictly earlier than the input
date (possibly in an earlier month). -/
theorem c7_modified_following_month_bound :
    ∀ (fuel : Nat) (z w : Int) (hs : HolidaySet),
      ModifiedFollowing.adjustDay fuel z hs = some w →
      monthOf w = monthOf z ∨ w < z := by
  intro fuel z w hs h
  rw [modifiedFollowing_eq_bind] at h
  cases hF : Following.adjustDay fuel z hs with
  | none => rw [hF] at h; exact absurd h (by simp)
  | some v =>
    rw [hF] at h
    simp only [Option.some_bind] at h
    by_cases hm : monthOf v ≠ monthOf z
    · rw [if_pos hm] at h
      obtain ⟨hzv, hbv, hfirst⟩ := following_sound fuel z v hs hF
      obtain ⟨hwv, hbw, -⟩ := preceding_sound fuel (v - 1) w hs h
      right
      by_contra hwz
      push_neg at hwz
      have hfw := hfirst w hwz (by omega)
      rw [hbw] at hfw
      simp at hfw
    · rw [if_neg hm] at h
      push_neg at hm
      obtain rfl : v = w := Option.some.inj h
      exact Or.inl hm

/-- C7 (witness): on 2023-12-31 with no holidays the call returns
2023-12-29, and indeed the result is strictly earlier than the input. -/
theorem c7_modified_following_month_bound_witness :
    ModifiedFollowing.adjustDay 5 (mkDate 2023 12 31) (fun _ => false) =
        some (mkDate 2023 12 29)
    ∧ (monthOf (mkDate 2023 12 29) = monthOf (mkDate 2023 12 31) ∨
        mkDate 2023 12 29 < mkDate 2023 12 31) :=
  ⟨by decide,
    c7_modified_following_month_bound 5 (mkDate 2023 12 31) (mkDate 2023 12 29)
      (fun _ => false) (by decide)⟩

/-- C10: for every holiday set and every date that is already a
business day, `Following.adjustDay` and `Preceding.adjustDay` return
the input date unchanged (for any positive fuel). -/
theorem c10_business_day_unchanged :
    ∀ (fuel : Nat) (z : Int) (hs : HolidaySet),
      is_business_day z hs = true →
      Following.adjustDay (fuel + 1) z hs = some z ∧
      Preceding.adjustDay (fuel + 1) z hs = some z := by
  intro fuel z hs h
  constructor <;> simp [Following.adjustDay, Preceding.adjustDay, h]

/-- C10 (witness): 2023-12-29 (a Friday) with no holidays is a business
day of its own and both walks return it unchanged. -/
theorem c10_business_day_unchanged_witness :
    is_business_day (mkDate 2023 12 29) (fun _ => false) = true ∧
      Following.adjustDay 1 (mkDate 2023 12 29) (fun _ => false) =
        some (mkDate 2023 12 29) ∧
      Preceding.adjustDay 1 (mkDate 2023 12 29) (fun _ => false) =
        some (mkDate 2023 12 29) := by
  have h : is_business_day (mkDate 2023 12 29) (fun _ => false) = true := by decide
  obtain ⟨h1, h2⟩ := c10_business_day_unchanged 0 (mkDate 2023 12 29) (fun _ => false) h
  exact ⟨h, h1, h2⟩

/-- C2 (witness): the pair 2023-01-15 / 2023-03-31 is valid, Thirty360
there differs from Thirty360US, and indeed the end day is 31. -/
theorem c2_thirty360_divergence_witness :
    Date.Valid ⟨2023, 1, 15⟩ ∧ Date.Valid ⟨2023, 3, 31⟩ ∧
      ¬(Thirty360.year_fraction ⟨2023, 1, 15⟩ ⟨2023, 3, 31⟩ =
          Thirty360US.year_fraction ⟨2023, 1, 15⟩ ⟨2023, 3, 31⟩ ∧
        Thirty360.year_fraction ⟨2023, 1, 15⟩ ⟨2023, 3, 31⟩ =
          Thirty360EU.year_fraction ⟨2023, 1, 15⟩ ⟨2023, 3, 31⟩) ∧
      ((⟨2023, 1, 15⟩ : Date).day = 31 ∨ (⟨2023, 3, 31⟩ : Date).day = 31) := by
  have h1 : Date.Valid ⟨2023, 1, 15⟩ := by decide
  have h2 : Date.Valid ⟨2023, 3, 31⟩ := by decide
  have h3 : ¬(Thirty360.year_fraction ⟨2023, 1, 15⟩ ⟨2023, 3, 31⟩ =
          Thirty360US.year_fraction ⟨2023, 1, 15⟩ ⟨2023, 3, 31⟩ ∧
        Thirty360.year_fraction ⟨2023, 1, 15⟩ ⟨2023, 3, 31⟩ =
          Thirty360EU.year_fraction ⟨2023, 1, 15⟩ ⟨2023, 3, 31⟩) := by
    rintro ⟨ha, -⟩
    revert ha
    norm_num [Thirty360.year_fraction, Thirty360US.year_fraction]
  exact ⟨h1, h2, h3, c2_thirty360_divergence.1 _ _ h1 h2 h3⟩
